import Mathlib

/-!
Shallow embedding of the modbusrouter bridge (src/main.rs) and proofs about
it: the frame decoder `read_message`, the register forwarder
`send_message_to_modbus`, and the connection-supervisor loop of `main`.
Machine integers (`u8`, `u16`) are embedded as `Nat` holding the numeric
value; where a theorem needs the `u8`/`u16` range it carries an explicit
bound.
-/

namespace ModbusRouter

/-- The `DeviceMessage` struct of main.rs (lines 143-158); `u8` and `u16`
fields become `Nat`. -/
structure DeviceMessage where
  batt_pid1 : Nat
  batt_value : Nat
  temp_pid2 : Nat
  temp_value : Nat
  vib_pid3 : Nat
  vib_x : Nat
  vib_y : Nat
  vib_z : Nat
  msg_num_pid5 : Nat
  msg_num_value : Nat
  version_pid11 : Nat
  version_value : Nat
  rssi_pid6 : Nat
  rssi_value : Nat
deriving Repr, DecidableEq, Inhabited

/-- The classified errors `read_message` can produce.  In the Rust source they
are `io::Error` values with `ErrorKind::Other` and a message string:
`unrecognisedStartSequence` is "Unrecognised start sequence",
`unexpectedMacAddress` is "Unexpected MAC address" (the error the spec names
`UnexpectedDeviceId`), `invalidPayloadLength` is "Length of payload must be
0x12 (18 bytes)" (named `InvalidPayloadLength` by the spec), and `ioError`
stands for any error bubbled up by `?` from the underlying reads. -/
inductive RmError where
  | ioError
  | unrecognisedStartSequence
  | unexpectedMacAddress
  | invalidPayloadLength
deriving Repr, DecidableEq

/-- The `START_SEQ` constant of main.rs line 78. -/
def START_SEQ : List Nat := [0x19, 0x00]

/-- The `MAC_ADDRESS` constant of main.rs line 85. -/
def MAC_ADDRESS : List Nat := [0xD0, 0xCF, 0x5E, 0x82, 0x93, 0x7B]

/-- Little-endian `u16` extraction as done by
`(&buffer[a..b]).read_u16::<LittleEndian>()?` with the byteorder crate: it
takes the first two bytes of the borrowed slice and fails with an I/O error
(UnexpectedEof) when the slice holds fewer than two bytes. -/
def read_u16_LE : List Nat → Except RmError Nat
  | lo :: hi :: _ => .ok (lo + 256 * hi)
  | _ => .error .ioError

/-- The pure part of `read_message` (main.rs lines 76-121): header validation
and positional payload decoding of the filled 27-byte buffer.  Slice
`buffer[..2]` is `buffer.take 2`, `buffer[2..8]` is `(buffer.drop 2).take 6`,
index `buffer[i]` is `buffer.getD i 0`, and the two-byte slice
`&buffer[a..a+2]` is `(buffer.drop a).take 2`. -/
def decodeFrame (buffer : List Nat) : Except RmError DeviceMessage :=
  if buffer.take 2 ≠ START_SEQ then
    .error .unrecognisedStartSequence
  else if (buffer.drop 2).take 6 ≠ MAC_ADDRESS then
    .error .unexpectedMacAddress
  else if buffer.getD 8 0 ≠ 0x12 then
    .error .invalidPayloadLength
  else do
    let x ← read_u16_LE ((buffer.drop 14).take 2)
    let y ← read_u16_LE ((buffer.drop 16).take 2)
    let z ← read_u16_LE ((buffer.drop 18).take 2)
    let num ← read_u16_LE ((buffer.drop 21).take 2)
    .ok {
      batt_pid1 := buffer.getD 9 0
      batt_value := buffer.getD 10 0
      temp_pid2 := buffer.getD 11 0
      temp_value := buffer.getD 12 0
      vib_pid3 := buffer.getD 13 0
      vib_x := x
      vib_y := y
      vib_z := z
      msg_num_pid5 := buffer.getD 20 0
      msg_num_value := num
      version_pid11 := buffer.getD 23 0
      version_value := buffer.getD 24 0
      rssi_pid6 := buffer.getD 25 0
      rssi_value := buffer.getD 26 0 }

/-- One result of a call to `Read::read` on the byte source: either a chunk of
bytes the source makes available (the reader takes at most as many as fit in
the remaining buffer slice; the rest stays in the source) or an I/O failure.
An exhausted source (the empty list) behaves like a stream at end of file:
every further read returns zero bytes, as `TcpStream::read` and
`Cursor::read` do. -/
inductive Chunk where
  | bytes (bs : List Nat)
  | ioErr
deriving Repr, DecidableEq

/-- A byte source: the queue of results its successive reads will yield. -/
abbrev Source := List Chunk

/-- The buffer-filling loop of `read_message` (main.rs lines 69-74):
`while num_bytes < buffer.len() { num_bytes += stream.read(&mut buffer[num_bytes..])? }`.
`acc` is the already-filled prefix of the 27-byte buffer.  `fuel` bounds the
number of loop iterations evaluated; `none` means the loop is still running
after `fuel` iterations (the Rust loop has no bound of its own, so a result
the code actually returns is a `some` for every sufficiently large fuel). -/
def fillLoop : Nat → Source → List Nat → Option (Except RmError (List Nat × Source))
  | 0, _, _ => none
  | fuel + 1, src, acc =>
    if acc.length < 27 then
      match src with
      | [] => fillLoop fuel [] acc
      | Chunk.ioErr :: _ => some (.error .ioError)
      | Chunk.bytes bs :: rest =>
        let wanted := 27 - acc.length
        let leftover := bs.drop wanted
        fillLoop fuel (if leftover = [] then rest else Chunk.bytes leftover :: rest)
          (acc ++ bs.take wanted)
    else
      some (.ok (acc, src))

/-- `read_message` (main.rs lines 64-122): fill the 27-byte buffer from the
stream, then validate and decode it.  `none` means the call has not returned
after `fuel` iterations of the read loop. -/
def read_message (fuel : Nat) (src : Source) :
    Option (Except RmError (DeviceMessage × Source)) :=
  match fillLoop fuel src [] with
  | none => none
  | some (.error e) => some (.error e)
  | some (.ok (buffer, rest)) =>
    match decodeFrame buffer with
    | .error e => some (.error e)
    | .ok msg => some (.ok (msg, rest))

/-- The bytes a source still holds, in order. -/
def srcBytes : Source → List Nat
  | [] => []
  | Chunk.bytes bs :: rest => bs ++ srcBytes rest
  | Chunk.ioErr :: rest => srcBytes rest

/-- A live, healthy source: every read yields at least one byte and none
fails.  `Cursor` over a nonempty vector and a TCP peer that keeps sending are
of this shape. -/
def goodSource (src : Source) : Prop :=
  ∀ c ∈ src, ∃ bs, c = Chunk.bytes bs ∧ bs ≠ []

/-- A well-formed frame: 27 bytes long and passing the three header checks of
`read_message`. -/
def WellFormedFrame (f : List Nat) : Prop :=
  f.length = 27 ∧ f.take 2 = START_SEQ ∧ (f.drop 2).take 6 = MAC_ADDRESS ∧
    f.getD 8 0 = 0x12

/-- The sample frame of spec §8 and of the first message of the
`read_message_multiple_messages` test. -/
def sampleFrame : List Nat :=
  [0x19, 0x00, 0xD0, 0xCF, 0x5E, 0x82, 0x93, 0x7B, 0x12, 0x01, 0x00, 0x02,
   0x54, 0x03, 0xFE, 0xF2, 0x5A, 0x02, 0x7A, 0x07, 0x05, 0x3A, 0x84, 0x0B,
   0x02, 0x06, 0xBD]

/-- The decoded fields the spec and the unit test expect for `sampleFrame`. -/
def sampleMessage : DeviceMessage :=
  { batt_pid1 := 1, batt_value := 0, temp_pid2 := 2, temp_value := 84
    vib_pid3 := 3, vib_x := 62206, vib_y := 602, vib_z := 1914
    msg_num_pid5 := 5, msg_num_value := 33850, version_pid11 := 11
    version_value := 2, rssi_pid6 := 6, rssi_value := 189 }

/-- Decoding a run of `n` frames from the source: call `read_message` `n`
times in sequence, as the inner loop of the supervisor does while everything
succeeds, collecting the messages.  Every call gets the same read-loop fuel
bound. -/
def decodeN (fuel : Nat) : Nat → Source → Option (Except RmError (List DeviceMessage × Source))
  | 0, src => some (.ok ([], src))
  | n + 1, src =>
    match read_message fuel src with
    | none => none
    | some (.error e) => some (.error e)
    | some (.ok (msg, rest)) =>
      match decodeN fuel n rest with
      | none => none
      | some (.error e) => some (.error e)
      | some (.ok (msgs, rest2)) => some (.ok (msg :: msgs, rest2))

/-- One call against the modbus `Transport` client: `write_single_register`
or `write_multiple_registers`, with its register address and value(s). -/
inductive ModbusCall where
  | writeSingle (address value : Nat)
  | writeMultiple (address : Nat) (values : List Nat)
deriving Repr, DecidableEq, Inhabited

/-- The `as u16` widening applied to each `u8` id/value field (and to the
already-16-bit `msg_num_value`) before a write: an unsigned, zero-extending
cast into the 16-bit register width. -/
def as_u16 (v : Nat) : Nat := v % 65536

/-- `send_message_to_modbus` (main.rs lines 125-139), instrumented with the
list of calls actually issued.  The client is modelled as a map from a call
to its outcome, `Except.error e` standing for a `modbus::Error`.  The six
writes are sequential and `?`-propagated: the first failing write makes the
function return that error at once and the later calls are never made. -/
def send_message_to_modbus (client : ModbusCall → Except Nat Unit)
    (msg : DeviceMessage) : List ModbusCall × Except Nat Unit :=
  let c1 := ModbusCall.writeSingle (as_u16 msg.batt_pid1) (as_u16 msg.batt_value)
  match client c1 with
  | .error e => ([c1], .error e)
  | .ok _ =>
    let c2 := ModbusCall.writeSingle (as_u16 msg.temp_pid2) (as_u16 msg.temp_value)
    match client c2 with
    | .error e => ([c1, c2], .error e)
    | .ok _ =>
      let c3 := ModbusCall.writeMultiple (as_u16 msg.vib_pid3)
        [msg.vib_x, msg.vib_y, msg.vib_z]
      match client c3 with
      | .error e => ([c1, c2, c3], .error e)
      | .ok _ =>
        let c4 := ModbusCall.writeSingle (as_u16 msg.msg_num_pid5) (as_u16 msg.msg_num_value)
        match client c4 with
        | .error e => ([c1, c2, c3, c4], .error e)
        | .ok _ =>
          let c5 := ModbusCall.writeSingle (as_u16 msg.version_pid11) (as_u16 msg.version_value)
          match client c5 with
          | .error e => ([c1, c2, c3, c4, c5], .error e)
          | .ok _ =>
            let c6 := ModbusCall.writeSingle (as_u16 msg.rssi_pid6) (as_u16 msg.rssi_value)
            match client c6 with
            | .error e => ([c1, c2, c3, c4, c5, c6], .error e)
            | .ok _ => ([c1, c2, c3, c4, c5, c6], .ok ())

/-- The full sequence of six register writes of main.rs lines 129-137 (the
order of spec §4.2) for a given message. -/
def modbusCalls (msg : DeviceMessage) : List ModbusCall :=
  [ModbusCall.writeSingle (as_u16 msg.batt_pid1) (as_u16 msg.batt_value),
   ModbusCall.writeSingle (as_u16 msg.temp_pid2) (as_u16 msg.temp_value),
   ModbusCall.writeMultiple (as_u16 msg.vib_pid3) [msg.vib_x, msg.vib_y, msg.vib_z],
   ModbusCall.writeSingle (as_u16 msg.msg_num_pid5) (as_u16 msg.msg_num_value),
   ModbusCall.writeSingle (as_u16 msg.version_pid11) (as_u16 msg.version_value),
   ModbusCall.writeSingle (as_u16 msg.rssi_pid6) (as_u16 msg.rssi_value)]

/-- State of the supervisor in `main` (lines 26-59): `connecting n` is the
head of the outer loop about to open a fresh connection, having opened `n`
connections so far; `connected n src` is the inner loop holding a live
connection whose unread byte source is `src`. -/
inductive SupState where
  | connecting (n : Nat)
  | connected (n : Nat) (src : Source)

/-- One transition of the nested loops of `main` (lines 26-59).
`connections k` is the byte source the `(k+1)`-th `TcpStream::connect`
produces (in the source a failed connect panics the whole process via
`expect`, so a running supervisor only ever sees successful connects);
`client` is the modbus client created once before the loops and reused across
reconnects.  From `connected`, one inner-loop iteration runs: a successful
`read_message` followed by a successful forward keeps the connection with the
rest of the stream; an `Err` from `read_message` or from
`send_message_to_modbus` hits a `break`, dropping the connection and
re-entering the outer loop, which immediately reconnects.  `none` mirrors
`read_message` never returning within `fuel`. -/
def supervisorStep (connections : Nat → Source) (client : ModbusCall → Except Nat Unit)
    (fuel : Nat) : SupState → Option SupState
  | .connecting n => some (.connected (n + 1) (connections n))
  | .connected n src =>
    match read_message fuel src with
    | none => none
    | some (.error _) => some (.connecting n)
    | some (.ok (msg, rest)) =>
      match (send_message_to_modbus client msg).2 with
      | .ok _ => some (.connected n rest)
      | .error _ => some (.connecting n)

/-- Modelled from the spec: the encoder `encode(m)` that spec §8 refers to in
"decode(encode(m)) == m" — the repository has no encoder of its own.
Following the byte-layout table of spec §6: the fixed 9-byte header (start sequence,
device identifier, payload length 0x12), then the fields positionally, the
16-bit fields in little-endian byte order. -/
def encode (m : DeviceMessage) : List Nat :=
  [0x19, 0x00, 0xD0, 0xCF, 0x5E, 0x82, 0x93, 0x7B, 0x12,
   m.batt_pid1, m.batt_value, m.temp_pid2, m.temp_value, m.vib_pid3,
   m.vib_x % 256, m.vib_x / 256, m.vib_y % 256, m.vib_y / 256,
   m.vib_z % 256, m.vib_z / 256,
   m.msg_num_pid5, m.msg_num_value % 256, m.msg_num_value / 256,
   m.version_pid11, m.version_value, m.rssi_pid6, m.rssi_value]

/-- A representable `DeviceMessage`: every field fits its Rust type (`u8`
fields below 2^8, `u16` fields below 2^16). -/
def Representable (m : DeviceMessage) : Prop :=
  m.batt_pid1 < 256 ∧ m.batt_value < 256 ∧ m.temp_pid2 < 256 ∧
    m.temp_value < 256 ∧ m.vib_pid3 < 256 ∧ m.vib_x < 65536 ∧
    m.vib_y < 65536 ∧ m.vib_z < 65536 ∧ m.msg_num_pid5 < 256 ∧
    m.msg_num_value < 65536 ∧ m.version_pid11 < 256 ∧
    m.version_value < 256 ∧ m.rssi_pid6 < 256 ∧ m.rssi_value < 256

/-- The message the payload-decoding step of `read_message` builds from bytes
9-26 of a filled buffer (main.rs lines 103-118), written with total
indexing.  For a 27-byte buffer this is what the fallible extraction in
`decodeFrame` produces. -/
def payloadMessage (buffer : List Nat) : DeviceMessage :=
  { batt_pid1 := buffer.getD 9 0
    batt_value := buffer.getD 10 0
    temp_pid2 := buffer.getD 11 0
    temp_value := buffer.getD 12 0
    vib_pid3 := buffer.getD 13 0
    vib_x := buffer.getD 14 0 + 256 * buffer.getD 15 0
    vib_y := buffer.getD 16 0 + 256 * buffer.getD 17 0
    vib_z := buffer.getD 18 0 + 256 * buffer.getD 19 0
    msg_num_pid5 := buffer.getD 20 0
    msg_num_value := buffer.getD 21 0 + 256 * buffer.getD 22 0
    version_pid11 := buffer.getD 23 0
    version_value := buffer.getD 24 0
    rssi_pid6 := buffer.getD 25 0
    rssi_value := buffer.getD 26 0 }

/-- The second frame of the `read_message_multiple_messages` unit test
(main.rs lines 177-179). -/
def sampleFrame2 : List Nat :=
  [0x19, 0x00, 0xD0, 0xCF, 0x5E, 0x82, 0x93, 0x7B, 0x12, 0x01, 0x00, 0x02,
   0x54, 0x03, 0xFF, 0xF2, 0x77, 0x02, 0x74, 0x07, 0x05, 0x3B, 0x84, 0x0B,
   0x02, 0x06, 0xCB]

/-- The malformed frame of the `read_message_no_start_seq` unit test
(main.rs lines 235-238): its first byte is `0xFF` instead of `0x19`. -/
def badStartFrame : List Nat :=
  [0xFF, 0x00, 0xFF, 0xCF, 0x5E, 0x82, 0x93, 0x7B, 0x12, 0x01, 0x00, 0x02,
   0x54, 0x03, 0xFE, 0xF2, 0x5A, 0x02, 0x7A, 0x07, 0x05, 0x3A, 0x84, 0x0B,
   0x02, 0x06, 0xBD]

/-- A register client that rejects exactly the fourth write of
`sampleMessage` (address 5, value 33850) with error code 7 and accepts
everything else. -/
def failingClient : ModbusCall → Except Nat Unit := fun c =>
  if c = ModbusCall.writeSingle 5 33850 then .error 7 else .ok ()

/-! Helper lemmas about list indexing and the decoder. -/

lemma getElem?_eq_getD (l : List Nat) (i : Nat) (h : i < l.length) :
    l[i]? = some (l.getD i 0) := by
  simp [List.getD_eq_getElem?_getD, List.getElem?_eq_getElem, h]

lemma take_two_drop (l : List Nat) (i : Nat) (h : i + 1 < l.length) :
    (l.drop i).take 2 = [l.getD i 0, l.getD (i + 1) 0] := by
  have h0 : i < l.length := by omega
  have g0 : l.getD i 0 = l.get ⟨i, h0⟩ := by
    simp [List.getD_eq_getElem?_getD, List.getElem?_eq_getElem, h0]
  have g1 : l.getD (i + 1) 0 = l.get ⟨i + 1, h⟩ := by
    simp [List.getD_eq_getElem?_getD, List.getElem?_eq_getElem, h]
  rw [g0, g1, List.drop_eq_getElem_cons h0, List.drop_eq_getElem_cons h]
  rfl

lemma getD_drop (l : List Nat) (n i : Nat) :
    (l.drop n).getD i 0 = l.getD (n + i) 0 := by
  simp [List.getD_eq_getElem?_getD, List.getElem?_drop]

/-- Once the three header checks have passed on a full 27-byte buffer, the
payload extraction cannot fail and yields exactly `payloadMessage buffer`. -/
lemma decode_ok_of_header (buffer : List Nat) (hlen : buffer.length = 27)
    (h1 : buffer.take 2 = START_SEQ) (h2 : (buffer.drop 2).take 6 = MAC_ADDRESS)
    (h3 : buffer.getD 8 0 = 0x12) :
    decodeFrame buffer = .ok (payloadMessage buffer) := by
  unfold decodeFrame
  rw [if_neg (not_ne_iff.mpr h1), if_neg (not_ne_iff.mpr h2),
    if_neg (not_ne_iff.mpr h3)]
  rw [take_two_drop _ _ (by omega), take_two_drop _ _ (by omega),
    take_two_drop _ _ (by omega), take_two_drop _ _ (by omega)]
  rfl

/-- Failing the first header check yields the start-sequence error. -/
lemma decode_err_start (buffer : List Nat) (h : buffer.take 2 ≠ START_SEQ) :
    decodeFrame buffer = .error .unrecognisedStartSequence := by
  unfold decodeFrame
  rw [if_pos h]

/-- Passing the first and failing the second header check yields the
device-identifier error. -/
lemma decode_err_mac (buffer : List Nat) (h1 : buffer.take 2 = START_SEQ)
    (h : (buffer.drop 2).take 6 ≠ MAC_ADDRESS) :
    decodeFrame buffer = .error .unexpectedMacAddress := by
  unfold decodeFrame
  rw [if_neg (not_ne_iff.mpr h1), if_pos h]

/-- Passing the first two and failing the length check yields the
payload-length error. -/
lemma decode_err_len (buffer : List Nat) (h1 : buffer.take 2 = START_SEQ)
    (h2 : (buffer.drop 2).take 6 = MAC_ADDRESS) (h : buffer.getD 8 0 ≠ 0x12) :
    decodeFrame buffer = .error .invalidPayloadLength := by
  unfold decodeFrame
  rw [if_neg (not_ne_iff.mpr h1), if_neg (not_ne_iff.mpr h2), if_pos h]

/-- A successful decode means the header checks all passed and the result is
the positional payload decode of the buffer. -/
lemma decode_ok_header_facts (buffer : List Nat) (m : DeviceMessage)
    (hlen : buffer.length = 27) (hdec : decodeFrame buffer = .ok m) :
    buffer.take 2 = START_SEQ ∧ (buffer.drop 2).take 6 = MAC_ADDRESS ∧
      buffer.getD 8 0 = 0x12 ∧ m = payloadMessage buffer := by
  have h1 : buffer.take 2 = START_SEQ := by
    by_contra hn
    rw [decode_err_start buffer hn] at hdec
    exact absurd hdec (by simp)
  have h2 : (buffer.drop 2).take 6 = MAC_ADDRESS := by
    by_contra hn
    rw [decode_err_mac buffer h1 hn] at hdec
    exact absurd hdec (by simp)
  have h3 : buffer.getD 8 0 = 0x12 := by
    by_contra hn
    rw [decode_err_len buffer h1 h2 hn] at hdec
    exact absurd hdec (by simp)
  refine ⟨h1, h2, h3, ?_⟩
  rw [decode_ok_of_header buffer hlen h1 h2 h3] at hdec
  exact (Except.ok.inj hdec).symm

/-- With a healthy source that runs out of data before the 27-byte buffer is
full, the read loop of `read_message` never terminates: once the source is
exhausted every read returns zero bytes, `num_bytes` stays short of 27, and
no iteration bound makes the loop return. -/
lemma fillLoop_starved : ∀ (fuel : Nat) (src : Source) (acc : List Nat),
    goodSource src → acc.length + (srcBytes src).length < 27 →
    fillLoop fuel src acc = none := by
  intro fuel
  induction fuel with
  | zero =>
    intro src acc _ _
    rfl
  | succ fuel ih =>
    intro src acc hgood hlt
    cases src with
    | nil =>
      have hacc : acc.length < 27 := by simp [srcBytes] at hlt; omega
      simp only [fillLoop]
      rw [if_pos hacc]
      exact ih [] acc hgood (by simp [srcBytes]; omega)
    | cons c rest =>
      cases c with
      | ioErr =>
        obtain ⟨bs, heq, hne⟩ := hgood _ (List.mem_cons_self _ _)
        exact absurd heq (by simp)
      | bytes bs =>
        have hsplit : bs.length + (srcBytes rest).length = (srcBytes (Chunk.bytes bs :: rest)).length := by
          simp [srcBytes]
        have hacc : acc.length < 27 := by omega
        have hbs : bs.length ≤ 27 - acc.length := by omega
        have htake : bs.take (27 - acc.length) = bs := List.take_of_length_le hbs
        have hdrop : bs.drop (27 - acc.length) = [] := List.drop_of_length_le hbs
        simp only [fillLoop]
        rw [if_pos hacc, htake, hdrop, if_pos rfl]
        refine ih rest (acc ++ bs) (fun c hc => hgood c (List.mem_cons_of_mem _ hc)) ?_
        rw [List.length_append]
        omega

/-- Splitting of a take across a partially consumed chunk. -/
lemma take_chunk_split (bs B : List Nat) (n : Nat) :
    bs.take n ++ (bs.drop n ++ B).take (n - min n bs.length) = (bs ++ B).take n := by
  rcases Nat.le_total n bs.length with h | h
  · have h1 : min n bs.length = n := by omega
    rw [h1, Nat.sub_self, List.take_zero, List.append_nil,
      List.take_append_eq_append_take, Nat.sub_eq_zero_of_le h, List.take_zero,
      List.append_nil]
  · have h1 : min n bs.length = bs.length := by omega
    rw [h1, List.take_of_length_le h, List.drop_of_length_le h, List.nil_append,
      List.take_append_eq_append_take, List.take_of_length_le h]

/-- Splitting of a drop across a partially consumed chunk. -/
lemma drop_chunk_split (bs B : List Nat) (n : Nat) :
    (bs.drop n ++ B).drop (n - min n bs.length) = (bs ++ B).drop n := by
  rcases Nat.le_total n bs.length with h | h
  · have h1 : min n bs.length = n := by omega
    rw [h1, Nat.sub_self, List.drop_zero, List.drop_append_eq_append_drop,
      Nat.sub_eq_zero_of_le h, List.drop_zero]
  · have h1 : min n bs.length = bs.length := by omega
    rw [h1, List.drop_of_length_le h, List.nil_append,
      List.drop_append_eq_append_drop, List.drop_of_length_le h, List.nil_append]

/-- On a healthy source holding at least 27 bytes, the read loop fills the
buffer with exactly the first 27 unread bytes of the stream and leaves all
later bytes in the source, within 28 loop iterations (every read returns at
least one byte). -/
lemma fillLoop_good : ∀ (fuel : Nat) (src : Source) (acc : List Nat),
    goodSource src → acc.length ≤ 27 →
    27 - acc.length ≤ (srcBytes src).length → 28 - acc.length ≤ fuel →
    ∃ rest, fillLoop fuel src acc =
        some (.ok (acc ++ (srcBytes src).take (27 - acc.length), rest)) ∧
      goodSource rest ∧ srcBytes rest = (srcBytes src).drop (27 - acc.length) := by
  intro fuel
  induction fuel with
  | zero =>
    intro src acc _ hle _ hfuel
    omega
  | succ fuel ih =>
    intro src acc hgood hle hbytes hfuel
    by_cases hacc : acc.length < 27
    · cases src with
      | nil =>
        exfalso
        simp [srcBytes] at hbytes
        omega
      | cons c rest =>
        cases c with
        | ioErr =>
          obtain ⟨bs, heq, hne⟩ := hgood _ (List.mem_cons_self _ _)
          exact absurd heq (by simp)
        | bytes bs =>
          obtain ⟨bs2, heq, hne0⟩ := hgood _ (List.mem_cons_self _ _)
          injection heq with heq2
          subst heq2
          have hbpos : 0 < bs.length := List.length_pos.mpr hne0
          have hsbc : srcBytes (Chunk.bytes bs :: rest) = bs ++ srcBytes rest := by
            simp [srcBytes]
          rw [hsbc] at hbytes ⊢
          have hgood2 : goodSource
              (if bs.drop (27 - acc.length) = [] then rest
               else Chunk.bytes (bs.drop (27 - acc.length)) :: rest) := by
            by_cases hd : bs.drop (27 - acc.length) = []
            · rw [if_pos hd]
              exact fun c hc => hgood c (List.mem_cons_of_mem _ hc)
            · rw [if_neg hd]
              intro c hc
              rcases List.mem_cons.mp hc with rfl | hc2
              · exact ⟨_, rfl, hd⟩
              · exact hgood c (List.mem_cons_of_mem _ hc2)
          have hsb2 : srcBytes
              (if bs.drop (27 - acc.length) = [] then rest
               else Chunk.bytes (bs.drop (27 - acc.length)) :: rest) =
              bs.drop (27 - acc.length) ++ srcBytes rest := by
            by_cases hd : bs.drop (27 - acc.length) = []
            · rw [if_pos hd, hd, List.nil_append]
            · rw [if_neg hd]
              simp [srcBytes]
          have hlacc2 : (acc ++ bs.take (27 - acc.length)).length =
              acc.length + min (27 - acc.length) bs.length := by
            rw [List.length_append, List.length_take]
          obtain ⟨rest2, hres, hg, hb⟩ := ih
            (if bs.drop (27 - acc.length) = [] then rest
             else Chunk.bytes (bs.drop (27 - acc.length)) :: rest)
            (acc ++ bs.take (27 - acc.length)) hgood2
            (by rw [hlacc2]; omega)
            (by rw [hlacc2, hsb2, List.length_append, List.length_drop]
                rw [List.length_append] at hbytes
                omega)
            (by rw [hlacc2]; omega)
          refine ⟨rest2, ?_, hg, ?_⟩
          · simp only [fillLoop]
            rw [if_pos hacc, hres, hsb2, hlacc2]
            have harith : 27 - (acc.length + min (27 - acc.length) bs.length) =
                (27 - acc.length) - min (27 - acc.length) bs.length := by omega
            rw [harith, List.append_assoc, take_chunk_split]
          · rw [hb, hsb2, hlacc2]
            have harith : 27 - (acc.length + min (27 - acc.length) bs.length) =
                (27 - acc.length) - min (27 - acc.length) bs.length := by omega
            rw [harith, drop_chunk_split]
    · have h27 : acc.length = 27 := by omega
      refine ⟨src, ?_, hgood, ?_⟩
      · simp only [fillLoop]
        rw [if_neg hacc, h27, Nat.sub_self, List.take_zero, List.append_nil]
      · rw [h27, Nat.sub_self, List.drop_zero]

/-- A healthy source that ends (reaches end of stream) before 27 bytes makes
`read_message` loop forever: it returns nothing, for any iteration bound. -/
lemma read_message_starved (fuel : Nat) (src : Source) (hgood : goodSource src)
    (hlt : (srcBytes src).length < 27) : read_message fuel src = none := by
  unfold read_message
  rw [fillLoop_starved fuel src [] hgood (by simpa using hlt)]

/-- Reading one frame from a healthy source whose unread stream starts with a
well-formed 27-byte frame succeeds, consumes exactly that frame, and decodes
its payload. -/
lemma read_message_wf (fuel : Nat) (src : Source) (f tail : List Nat)
    (hgood : goodSource src) (hsb : srcBytes src = f ++ tail)
    (hwf : WellFormedFrame f) (hfuel : 28 ≤ fuel) :
    ∃ rest, read_message fuel src = some (.ok (payloadMessage f, rest)) ∧
      goodSource rest ∧ srcBytes rest = tail := by
  obtain ⟨hlen, h1, h2, h3⟩ := hwf
  obtain ⟨rest, hres, hg, hb⟩ := fillLoop_good fuel src [] hgood (by simp)
    (by rw [hsb, List.length_append]; omega) (by simpa using hfuel)
  have htake : ([] : List Nat) ++ (srcBytes src).take (27 - ([] : List Nat).length) = f := by
    rw [List.nil_append, List.length_nil, Nat.sub_zero, hsb,
      List.take_append_eq_append_take, List.take_of_length_le (by omega), hlen,
      Nat.sub_self, List.take_zero, List.append_nil]
  have hdrop : (srcBytes src).drop (27 - ([] : List Nat).length) = tail := by
    rw [List.length_nil, Nat.sub_zero, hsb, List.drop_append_eq_append_drop,
      List.drop_of_length_le (by omega), hlen, Nat.sub_self, List.drop_zero,
      List.nil_append]
  rw [htake] at hres
  rw [hdrop] at hb
  refine ⟨rest, ?_, hg, hb⟩
  unfold read_message
  rw [hres]
  simp [decode_ok_of_header f hlen h1 h2 h3]

/-- Sequential decoding of a stream that is a concatenation of well-formed
frames followed by `tail`: every frame decodes successfully, in order, and
exactly the frame bytes are consumed, leaving `tail` unread. -/
lemma decodeN_frames (fuel : Nat) :
    ∀ (frames : List (List Nat)) (src : Source) (tail : List Nat),
    (∀ f ∈ frames, WellFormedFrame f) → goodSource src →
    srcBytes src = frames.flatten ++ tail → 28 ≤ fuel →
    ∃ msgs rest, decodeN fuel frames.length src = some (.ok (msgs, rest)) ∧
      List.Forall₂ (fun m f => decodeFrame f = Except.ok m) msgs frames ∧
      goodSource rest ∧ srcBytes rest = tail := by
  intro frames
  induction frames with
  | nil =>
    intro src tail _ hgood hsb _
    exact ⟨[], src, rfl, List.Forall₂.nil, hgood, by simpa using hsb⟩
  | cons f fs ih =>
    intro src tail hwf hgood hsb hfuel
    have hwff : WellFormedFrame f := hwf f (List.mem_cons_self _ _)
    obtain ⟨rest, hres, hg, hb⟩ := read_message_wf fuel src f (fs.flatten ++ tail) hgood
      (by rw [hsb]; simp) hwff hfuel
    obtain ⟨msgs, rest2, hres2, hfa, hg2, hb2⟩ := ih rest tail
      (fun g hgm => hwf g (List.mem_cons_of_mem _ hgm)) hg hb hfuel
    refine ⟨payloadMessage f :: msgs, rest2, ?_, ?_, hg2, hb2⟩
    · rw [List.length_cons]
      simp only [decodeN, hres, hres2]
    · exact List.Forall₂.cons
        (decode_ok_of_header f hwff.1 hwff.2.1 hwff.2.2.1 hwff.2.2.2) hfa

/-- A 27-byte buffer of genuine bytes that passes the three header checks is
exactly the encoding of its decoded message: decoding loses no information. -/
lemma frame_eq_encode (f : List Nat) (hlen : f.length = 27)
    (hbytes : ∀ b ∈ f, b < 256) (h1 : f.take 2 = START_SEQ)
    (h2 : (f.drop 2).take 6 = MAC_ADDRESS) (h3 : f.getD 8 0 = 0x12) :
    f = encode (payloadMessage f) := by
  have e0 : f[0]? = some 0x19 := by
    have h : (f.take 2)[0]? = START_SEQ[0]? := congrArg (fun l => l[0]?) h1
    rw [List.getElem?_take_of_lt (by omega)] at h
    exact h
  have e1 : f[1]? = some 0x00 := by
    have h : (f.take 2)[1]? = START_SEQ[1]? := congrArg (fun l => l[1]?) h1
    rw [List.getElem?_take_of_lt (by omega)] at h
    exact h
  have e2 : f[2]? = some 0xD0 := by
    have h : ((f.drop 2).take 6)[0]? = MAC_ADDRESS[0]? := congrArg (fun l => l[0]?) h2
    rw [List.getElem?_take_of_lt (by omega), List.getElem?_drop] at h
    exact h
  have e3 : f[3]? = some 0xCF := by
    have h : ((f.drop 2).take 6)[1]? = MAC_ADDRESS[1]? := congrArg (fun l => l[1]?) h2
    rw [List.getElem?_take_of_lt (by omega), List.getElem?_drop] at h
    exact h
  have e4 : f[4]? = some 0x5E := by
    have h : ((f.drop 2).take 6)[2]? = MAC_ADDRESS[2]? := congrArg (fun l => l[2]?) h2
    rw [List.getElem?_take_of_lt (by omega), List.getElem?_drop] at h
    exact h
  have e5 : f[5]? = some 0x82 := by
    have h : ((f.drop 2).take 6)[3]? = MAC_ADDRESS[3]? := congrArg (fun l => l[3]?) h2
    rw [List.getElem?_take_of_lt (by omega), List.getElem?_drop] at h
    exact h
  have e6 : f[6]? = some 0x93 := by
    have h : ((f.drop 2).take 6)[4]? = MAC_ADDRESS[4]? := congrArg (fun l => l[4]?) h2
    rw [List.getElem?_take_of_lt (by omega), List.getElem?_drop] at h
    exact h
  have e7 : f[7]? = some 0x7B := by
    have h : ((f.drop 2).take 6)[5]? = MAC_ADDRESS[5]? := congrArg (fun l => l[5]?) h2
    rw [List.getElem?_take_of_lt (by omega), List.getElem?_drop] at h
    exact h
  have e8 : f[8]? = some 0x12 := by
    rw [getElem?_eq_getD f 8 (by omega), h3]
  have eg : ∀ i, i < 27 → f[i]? = some (f.getD i 0) := fun i hi =>
    getElem?_eq_getD f i (by omega)
  have hb : ∀ i, i < 27 → f.getD i 0 < 256 := by
    intro i hi
    have hi2 : i < f.length := by omega
    have hgi : f.getD i 0 = f.get ⟨i, hi2⟩ := by
      simp [List.getD_eq_getElem?_getD, List.getElem?_eq_getElem, hi2]
    rw [hgi]
    exact hbytes _ (List.get_mem f i hi2)
  have hb14 := hb 14 (by omega)
  have hb15 := hb 15 (by omega)
  have hb16 := hb 16 (by omega)
  have hb17 := hb 17 (by omega)
  have hb18 := hb 18 (by omega)
  have hb19 := hb 19 (by omega)
  have hb21 := hb 21 (by omega)
  have hb22 := hb 22 (by omega)
  have henc : encode (payloadMessage f) =
      [0x19, 0x00, 0xD0, 0xCF, 0x5E, 0x82, 0x93, 0x7B, 0x12,
       f.getD 9 0, f.getD 10 0, f.getD 11 0, f.getD 12 0, f.getD 13 0,
       f.getD 14 0, f.getD 15 0, f.getD 16 0, f.getD 17 0, f.getD 18 0,
       f.getD 19 0, f.getD 20 0, f.getD 21 0, f.getD 22 0, f.getD 23 0,
       f.getD 24 0, f.getD 25 0, f.getD 26 0] := by
    simp only [encode, payloadMessage, List.cons.injEq, and_true, true_and]
    omega
  rw [henc]
  apply List.ext_getElem?
  intro i
  by_cases hi : i < 27
  · interval_cases i
    · rw [e0]; rfl
    · rw [e1]; rfl
    · rw [e2]; rfl
    · rw [e3]; rfl
    · rw [e4]; rfl
    · rw [e5]; rfl
    · rw [e6]; rfl
    · rw [e7]; rfl
    · rw [e8]; rfl
    · rw [eg 9 (by omega)]; rfl
    · rw [eg 10 (by omega)]; rfl
    · rw [eg 11 (by omega)]; rfl
    · rw [eg 12 (by omega)]; rfl
    · rw [eg 13 (by omega)]; rfl
    · rw [eg 14 (by omega)]; rfl
    · rw [eg 15 (by omega)]; rfl
    · rw [eg 16 (by omega)]; rfl
    · rw [eg 17 (by omega)]; rfl
    · rw [eg 18 (by omega)]; rfl
    · rw [eg 19 (by omega)]; rfl
    · rw [eg 20 (by omega)]; rfl
    · rw [eg 21 (by omega)]; rfl
    · rw [eg 22 (by omega)]; rfl
    · rw [eg 23 (by omega)]; rfl
    · rw [eg 24 (by omega)]; rfl
    · rw [eg 25 (by omega)]; rfl
    · rw [eg 26 (by omega)]; rfl
  · rw [List.getElem?_eq_none (by omega), List.getElem?_eq_none (by simp; omega)]

/-! Claim theorems. -/

/-- C1: for every 27-byte frame, decoding validates the header in order and
short-circuits on the first failure: if bytes 0-1 differ from `19 00` it
fails with the start-sequence error; otherwise if bytes 2-7 differ from
`D0 CF 5E 82 93 7B` it fails with the device-identifier error; otherwise if
byte 8 differs from `0x12` it fails with the payload-length error; otherwise
decoding succeeds. -/
theorem claim_C1_header_checks (buffer : List Nat) (hlen : buffer.length = 27) :
    (buffer.take 2 ≠ START_SEQ →
      decodeFrame buffer = .error .unrecognisedStartSequence) ∧
    (buffer.take 2 = START_SEQ → (buffer.drop 2).take 6 ≠ MAC_ADDRESS →
      decodeFrame buffer = .error .unexpectedMacAddress) ∧
    (buffer.take 2 = START_SEQ → (buffer.drop 2).take 6 = MAC_ADDRESS →
      buffer.getD 8 0 ≠ 0x12 →
      decodeFrame buffer = .error .invalidPayloadLength) ∧
    (buffer.take 2 = START_SEQ → (buffer.drop 2).take 6 = MAC_ADDRESS →
      buffer.getD 8 0 = 0x12 →
      decodeFrame buffer = .ok (payloadMessage buffer)) :=
  ⟨decode_err_start buffer, decode_err_mac buffer,
   decode_err_len buffer, decode_ok_of_header buffer hlen⟩

/-- Witness for C1 at the bad-start-sequence frame of the unit tests. -/
theorem claim_C1_witness :
    decodeFrame badStartFrame = .error .unrecognisedStartSequence :=
  (claim_C1_header_checks badStartFrame rfl).1 (by decide)

/-- C2: the claim states that a read returning zero bytes (end of stream)
before the 27-byte buffer is filled makes the decode call return an I/O
error, terminating decoding.  The code does not do this: `Read::read`
reports end of stream by returning `Ok(0)`, which the `?` operator does not
treat as an error, so `num_bytes` stops growing and the
`while num_bytes < buffer.len()` loop spins forever.  On a source at end of
stream (here: an immediately exhausted source, and a source that ends after
26 of the 27 bytes of a well-formed frame) `read_message` never returns at
all, whatever iteration bound is allowed â in particular it never returns
the claimed I/O error. -/
theorem claim_C2_eof_never_returns (fuel : Nat) :
    read_message fuel [] = none ∧
    read_message fuel [Chunk.bytes (sampleFrame.take 26)] = none := by
  constructor
  · exact read_message_starved fuel []
      (fun c hc => absurd hc (List.not_mem_nil c)) (by decide)
  · refine read_message_starved fuel _ ?_ (by decide)
    intro c hc
    rcases List.mem_cons.mp hc with rfl | hc2
    · exact ⟨_, rfl, by decide⟩
    · exact absurd hc2 (List.not_mem_nil c)

/-- C3: decoding the specific 27-byte sample frame succeeds and yields the
expected fields (battery id 1 value 0, temperature id 2 value 84, vibration
id 3 with x 62206 y 602 z 1914, message-sequence id 5 value 33850,
firmware-version id 11 value 2, signal-strength id 6 value 189), both as a
pure buffer decode and as a full `read_message` call consuming the frame. -/
theorem claim_C3_sample_decode :
    decodeFrame sampleFrame = .ok sampleMessage ∧
    read_message 28 [Chunk.bytes sampleFrame] =
      some (.ok (sampleMessage, [])) :=
  ⟨rfl, rfl⟩

/-- C4: encoding any representable message and decoding the resulting frame
returns exactly that message; conversely a successful decode of a 27-byte
frame of genuine bytes determines the frame as the encoding of the result,
so decoding is deterministic and injective on well-formed frames. -/
theorem claim_C4_roundtrip :
    (∀ m : DeviceMessage, Representable m →
      decodeFrame (encode m) = .ok m) ∧
    (∀ (f : List Nat) (m : DeviceMessage), f.length = 27 →
      (∀ b ∈ f, b < 256) → decodeFrame f = .ok m → f = encode m) := by
  constructor
  · intro m hrep
    obtain ⟨a1, a2, a3, a4, a5, x, y, z, a6, w, a7, a8, a9, a10⟩ := m
    have hd := decode_ok_of_header
      (encode ⟨a1, a2, a3, a4, a5, x, y, z, a6, w, a7, a8, a9, a10⟩)
      rfl rfl rfl rfl
    rw [hd]
    refine congrArg Except.ok ?_
    show (⟨a1, a2, a3, a4, a5, x % 256 + 256 * (x / 256),
      y % 256 + 256 * (y / 256), z % 256 + 256 * (z / 256), a6,
      w % 256 + 256 * (w / 256), a7, a8, a9, a10⟩ : DeviceMessage) = _
    simp [DeviceMessage.mk.injEq, Nat.mod_add_div]
  · intro f m hlen hbytes hdec
    obtain ⟨h1, h2, h3, hm⟩ := decode_ok_header_facts f m hlen hdec
    rw [hm]
    exact frame_eq_encode f hlen hbytes h1 h2 h3

/-- Witness for C4: the round trip at the sample message. -/
theorem claim_C4_witness :
    decodeFrame (encode sampleMessage) = .ok sampleMessage :=
  claim_C4_roundtrip.1 sampleMessage (by unfold Representable; decide)

/-- C5: a stream whose bytes are exactly the concatenation of well-formed
27-byte frames (followed by any tail) yields one successful decode per
frame when decoded sequentially; after any `k` calls exactly the first `k`
frames â 27 bytes each â have been consumed, so no byte is lost, skipped,
or read twice between consecutive frames. -/
theorem claim_C5_stream_of_frames (fuel : Nat) (frames : List (List Nat))
    (src : Source) (tail : List Nat)
    (hwf : ∀ f ∈ frames, WellFormedFrame f) (hgood : goodSource src)
    (hsb : srcBytes src = frames.flatten ++ tail) (hfuel : 28 ≤ fuel) :
    ∀ k, k ≤ frames.length → ∃ msgs rest,
      decodeN fuel k src = some (.ok (msgs, rest)) ∧
      List.Forall₂ (fun m f => decodeFrame f = Except.ok m) msgs
        (frames.take k) ∧
      goodSource rest ∧
      srcBytes rest = (frames.drop k).flatten ++ tail := by
  intro k hk
  have hsplit : srcBytes src =
      (frames.take k).flatten ++ ((frames.drop k).flatten ++ tail) := by
    rw [hsb, ← List.append_assoc, ← List.flatten_append,
      List.take_append_drop]
  obtain ⟨msgs, rest, hres, hfa, hg, hb⟩ := decodeN_frames fuel
    (frames.take k) src ((frames.drop k).flatten ++ tail)
    (fun f hf => hwf f (List.mem_of_mem_take hf)) hgood hsplit hfuel
  have hklen : (frames.take k).length = k := by
    rw [List.length_take]
    omega
  rw [hklen] at hres
  exact ⟨msgs, rest, hres, hfa, hg, hb⟩

/-- Witness for C5 on the stream made of the first two frames of the
multiple-messages unit test. -/
theorem claim_C5_witness :
    ∃ msgs rest,
      decodeN 28 2 [Chunk.bytes (sampleFrame ++ sampleFrame2)] =
        some (.ok (msgs, rest)) ∧
      List.Forall₂ (fun m f => decodeFrame f = Except.ok m) msgs
        ([sampleFrame, sampleFrame2].take 2) ∧
      goodSource rest ∧
      srcBytes rest = ([sampleFrame, sampleFrame2].drop 2).flatten ++ [] :=
  claim_C5_stream_of_frames 28 [sampleFrame, sampleFrame2]
    [Chunk.bytes (sampleFrame ++ sampleFrame2)] []
    (by intro f hf
        rcases List.mem_cons.mp hf with rfl | hf2
        · exact ⟨rfl, rfl, rfl, rfl⟩
        · rcases List.mem_cons.mp hf2 with rfl | hf3
          · exact ⟨rfl, rfl, rfl, rfl⟩
          · exact absurd hf3 (List.not_mem_nil f))
    (by intro c hc
        rcases List.mem_cons.mp hc with rfl | hc2
        · exact ⟨_, rfl, by decide⟩
        · exact absurd hc2 (List.not_mem_nil c))
    (by simp [srcBytes]) (by omega) 2 (by decide)

/-- C6: forwarding a decoded message issues exactly six register-client
calls, in the fixed order battery, temperature, vibration (one contiguous
3-register write of x, y, z), message sequence, firmware version, signal
strength, each using the id field as register address, with every byte-wide
id and value zero-extended â value preserved â into the 16-bit register
width. -/
theorem claim_C6_forward_calls (msg : DeviceMessage)
    (client : ModbusCall → Except Nat Unit) (hrep : Representable msg)
    (hok : ∀ c, client c = .ok ()) :
    send_message_to_modbus client msg =
      ([ModbusCall.writeSingle msg.batt_pid1 msg.batt_value,
        ModbusCall.writeSingle msg.temp_pid2 msg.temp_value,
        ModbusCall.writeMultiple msg.vib_pid3
          [msg.vib_x, msg.vib_y, msg.vib_z],
        ModbusCall.writeSingle msg.msg_num_pid5 msg.msg_num_value,
        ModbusCall.writeSingle msg.version_pid11 msg.version_value,
        ModbusCall.writeSingle msg.rssi_pid6 msg.rssi_value], .ok ()) := by
  obtain ⟨h1, h2, h3, h4, h5, h6, h7, h8, h9, h10, h11, h12, h13, h14⟩ := hrep
  have hu : ∀ v : Nat, v < 65536 → as_u16 v = v := fun v hv =>
    Nat.mod_eq_of_lt hv
  simp only [send_message_to_modbus, hok]
  rw [hu msg.batt_pid1 (by omega), hu msg.batt_value (by omega),
    hu msg.temp_pid2 (by omega), hu msg.temp_value (by omega),
    hu msg.vib_pid3 (by omega), hu msg.msg_num_pid5 (by omega),
    hu msg.msg_num_value (by omega), hu msg.version_pid11 (by omega),
    hu msg.version_value (by omega), hu msg.rssi_pid6 (by omega),
    hu msg.rssi_value (by omega)]

/-- Witness for C6 at the sample message with an always-succeeding client. -/
theorem claim_C6_witness :
    send_message_to_modbus (fun _ => .ok ()) sampleMessage =
      ([ModbusCall.writeSingle 1 0, ModbusCall.writeSingle 2 84,
        ModbusCall.writeMultiple 3 [62206, 602, 1914],
        ModbusCall.writeSingle 5 33850, ModbusCall.writeSingle 11 2,
        ModbusCall.writeSingle 6 189], .ok ()) :=
  claim_C6_forward_calls sampleMessage (fun _ => .ok ())
    (by unfold Representable; decide) (fun c => rfl)

/-- C7: with any register client, if the first `k` writes succeed and the
write at position `k` fails with error `e`, then forwarding issues exactly
the first `k + 1` of the six writes â the later writes are never issued, the
error of the failing write is returned to the caller, the earlier writes
stay issued (no rollback) and no write is retried. -/
theorem claim_C7_first_failure_aborts (msg : DeviceMessage)
    (client : ModbusCall → Except Nat Unit) (k e : Nat) (hk : k < 6)
    (hpre : ∀ j, j < k →
      client ((modbusCalls msg).getD j (ModbusCall.writeSingle 0 0)) = .ok ())
    (hfail : client ((modbusCalls msg).getD k (ModbusCall.writeSingle 0 0)) =
      .error e) :
    send_message_to_modbus client msg =
      ((modbusCalls msg).take (k + 1), .error e) := by
  interval_cases k
  · have f0 : client (ModbusCall.writeSingle (as_u16 msg.batt_pid1)
        (as_u16 msg.batt_value)) = .error e := hfail
    simp only [send_message_to_modbus, f0]
    rfl
  · have p0 : client (ModbusCall.writeSingle (as_u16 msg.batt_pid1)
        (as_u16 msg.batt_value)) = .ok () := hpre 0 (by omega)
    have f1 : client (ModbusCall.writeSingle (as_u16 msg.temp_pid2)
        (as_u16 msg.temp_value)) = .error e := hfail
    simp only [send_message_to_modbus, p0, f1]
    rfl
  · have p0 : client (ModbusCall.writeSingle (as_u16 msg.batt_pid1)
        (as_u16 msg.batt_value)) = .ok () := hpre 0 (by omega)
    have p1 : client (ModbusCall.writeSingle (as_u16 msg.temp_pid2)
        (as_u16 msg.temp_value)) = .ok () := hpre 1 (by omega)
    have f2 : client (ModbusCall.writeMultiple (as_u16 msg.vib_pid3)
        [msg.vib_x, msg.vib_y, msg.vib_z]) = .error e := hfail
    simp only [send_message_to_modbus, p0, p1, f2]
    rfl
  · have p0 : client (ModbusCall.writeSingle (as_u16 msg.batt_pid1)
        (as_u16 msg.batt_value)) = .ok () := hpre 0 (by omega)
    have p1 : client (ModbusCall.writeSingle (as_u16 msg.temp_pid2)
        (as_u16 msg.temp_value)) = .ok () := hpre 1 (by omega)
    have p2 : client (ModbusCall.writeMultiple (as_u16 msg.vib_pid3)
        [msg.vib_x, msg.vib_y, msg.vib_z]) = .ok () := hpre 2 (by omega)
    have f3 : client (ModbusCall.writeSingle (as_u16 msg.msg_num_pid5)
        (as_u16 msg.msg_num_value)) = .error e := hfail
    simp only [send_message_to_modbus, p0, p1, p2, f3]
    rfl
  · have p0 : client (ModbusCall.writeSingle (as_u16 msg.batt_pid1)
        (as_u16 msg.batt_value)) = .ok () := hpre 0 (by omega)
    have p1 : client (ModbusCall.writeSingle (as_u16 msg.temp_pid2)
        (as_u16 msg.temp_value)) = .ok () := hpre 1 (by omega)
    have p2 : client (ModbusCall.writeMultiple (as_u16 msg.vib_pid3)
        [msg.vib_x, msg.vib_y, msg.vib_z]) = .ok () := hpre 2 (by omega)
    have p3 : client (ModbusCall.writeSingle (as_u16 msg.msg_num_pid5)
        (as_u16 msg.msg_num_value)) = .ok () := hpre 3 (by omega)
    have f4 : client (ModbusCall.writeSingle (as_u16 msg.version_pid11)
        (as_u16 msg.version_value)) = .error e := hfail
    simp only [send_message_to_modbus, p0, p1, p2, p3, f4]
    rfl
  · have p0 : client (ModbusCall.writeSingle (as_u16 msg.batt_pid1)
        (as_u16 msg.batt_value)) = .ok () := hpre 0 (by omega)
    have p1 : client (ModbusCall.writeSingle (as_u16 msg.temp_pid2)
        (as_u16 msg.temp_value)) = .ok () := hpre 1 (by omega)
    have p2 : client (ModbusCall.writeMultiple (as_u16 msg.vib_pid3)
        [msg.vib_x, msg.vib_y, msg.vib_z]) = .ok () := hpre 2 (by omega)
    have p3 : client (ModbusCall.writeSingle (as_u16 msg.msg_num_pid5)
        (as_u16 msg.msg_num_value)) = .ok () := hpre 3 (by omega)
    have p4 : client (ModbusCall.writeSingle (as_u16 msg.version_pid11)
        (as_u16 msg.version_value)) = .ok () := hpre 4 (by omega)
    have f5 : client (ModbusCall.writeSingle (as_u16 msg.rssi_pid6)
        (as_u16 msg.rssi_value)) = .error e := hfail
    simp only [send_message_to_modbus, p0, p1, p2, p3, p4, f5]
    rfl

/-- Witness for C7: a client that rejects the fourth write of the sample
message; exactly four calls are issued and error 7 is returned. -/
theorem claim_C7_witness :
    send_message_to_modbus failingClient sampleMessage =
      ((modbusCalls sampleMessage).take 4, .error 7) :=
  claim_C7_first_failure_aborts sampleMessage failingClient 3 7 (by omega)
    (by intro j hj
        interval_cases j
        · rfl
        · rfl
        · rfl)
    rfl

/-- C8: for every 27-byte buffer that has passed the three header checks, the
positional payload-decoding step cannot fail: the fallible little-endian
field extraction always succeeds and decoding returns the positionally
decoded message, so the error branch of the extraction is unreachable. -/
theorem claim_C8_payload_cannot_fail (buffer : List Nat)
    (hlen : buffer.length = 27) (h1 : buffer.take 2 = START_SEQ)
    (h2 : (buffer.drop 2).take 6 = MAC_ADDRESS)
    (h3 : buffer.getD 8 0 = 0x12) :
    decodeFrame buffer = .ok (payloadMessage buffer) :=
  decode_ok_of_header buffer hlen h1 h2 h3

/-- Witness for C8 at the second unit-test frame. -/
theorem claim_C8_witness :
    decodeFrame sampleFrame2 = .ok (payloadMessage sampleFrame2) :=
  claim_C8_payload_cannot_fail sampleFrame2 rfl rfl rfl rfl

/-- C9: in the connected loop, a decode error (including stream I/O
failures) or a forward error makes the very next supervisor transition drop
the current connection â the remaining bytes of that connection are
discarded, never re-decoded â and from the disconnected state the next
transition immediately opens a fresh connection, for every connection count
`n` (so retries are unbounded and have no backoff step between error and
reconnect). -/
theorem claim_C9_error_reconnects (connections : Nat → Source)
    (client : ModbusCall → Except Nat Unit) (fuel n : Nat) (src : Source) :
    (∀ e, read_message fuel src = some (.error e) →
      supervisorStep connections client fuel (.connected n src) =
        some (.connecting n)) ∧
    (∀ msg rest, read_message fuel src = some (.ok (msg, rest)) →
      ∀ e, (send_message_to_modbus client msg).2 = .error e →
      supervisorStep connections client fuel (.connected n src) =
        some (.connecting n)) ∧
    supervisorStep connections client fuel (.connecting n) =
      some (.connected (n + 1) (connections n)) := by
  refine ⟨?_, ?_, rfl⟩
  · intro e h
    simp [supervisorStep, h]
  · intro msg rest h e h2
    simp [supervisorStep, h, h2]

/-- Witness for C9: a failing modbus client makes the supervisor drop the
connection right after the sample frame is decoded. -/
theorem claim_C9_witness :
    supervisorStep (fun _ => []) (fun _ => .error 3) 28
      (.connected 0 [Chunk.bytes sampleFrame]) = some (.connecting 0) :=
  (claim_C9_error_reconnects (fun _ => []) (fun _ => .error 3) 28 0
    [Chunk.bytes sampleFrame]).2.1 sampleMessage [] rfl 3 rfl

/-- C10: for 27-byte frames, the success/failure outcome and the error kind
of decoding depend only on the 9 header bytes, and the decoded field values
of a successful decode depend only on the 18 payload bytes. -/
theorem claim_C10_noninterference (f1 f2 : List Nat)
    (hl1 : f1.length = 27) (hl2 : f2.length = 27) :
    (f1.take 9 = f2.take 9 →
      (∃ e, decodeFrame f1 = .error e ∧ decodeFrame f2 = .error e) ∨
      (∃ m1 m2, decodeFrame f1 = .ok m1 ∧ decodeFrame f2 = .ok m2)) ∧
    (f1.drop 9 = f2.drop 9 → ∀ m1 m2, decodeFrame f1 = .ok m1 →
      decodeFrame f2 = .ok m2 → m1 = m2) := by
  constructor
  · intro h9
    have e2 : f1.take 2 = f2.take 2 := by
      have h : (f1.take 9).take 2 = (f2.take 9).take 2 :=
        congrArg (List.take 2) h9
      simpa [List.take_take] using h
    have e6 : (f1.drop 2).take 6 = (f2.drop 2).take 6 := by
      have h : ((f1.take 9).drop 2).take 6 = ((f2.take 9).drop 2).take 6 :=
        congrArg (fun l => (List.drop 2 l).take 6) h9
      simpa [List.drop_take, List.take_take] using h
    have e8 : f1.getD 8 0 = f2.getD 8 0 := by
      have h : (f1.take 9).getD 8 0 = (f2.take 9).getD 8 0 :=
        congrArg (fun l => l.getD 8 0) h9
      simpa [List.getD_eq_getElem?_getD, List.getElem?_take_of_lt] using h
    by_cases c1 : f2.take 2 = START_SEQ
    · by_cases c2 : (f2.drop 2).take 6 = MAC_ADDRESS
      · by_cases c3 : f2.getD 8 0 = 0x12
        · right
          exact ⟨payloadMessage f1, payloadMessage f2,
            decode_ok_of_header f1 hl1 (e2.trans c1) (e6.trans c2)
              (e8.trans c3),
            decode_ok_of_header f2 hl2 c1 c2 c3⟩
        · left
          exact ⟨_, decode_err_len f1 (e2.trans c1) (e6.trans c2)
              (by rw [e8]; exact c3),
            decode_err_len f2 c1 c2 c3⟩
      · left
        exact ⟨_, decode_err_mac f1 (e2.trans c1) (by rw [e6]; exact c2),
          decode_err_mac f2 c1 c2⟩
    · left
      exact ⟨_, decode_err_start f1 (by rw [e2]; exact c1),
        decode_err_start f2 c1⟩
  · intro hp m1 m2 hd1 hd2
    obtain ⟨_, _, _, hm1⟩ := decode_ok_header_facts f1 m1 hl1 hd1
    obtain ⟨_, _, _, hm2⟩ := decode_ok_header_facts f2 m2 hl2 hd2
    have hgd : ∀ i, 9 ≤ i → f1.getD i 0 = f2.getD i 0 := by
      intro i hi
      have h : (f1.drop 9).getD (i - 9) 0 = (f2.drop 9).getD (i - 9) 0 :=
        congrArg (fun l => l.getD (i - 9) 0) hp
      rw [getD_drop, getD_drop, Nat.add_sub_cancel' hi] at h
      exact h
    rw [hm1, hm2]
    simp only [payloadMessage, DeviceMessage.mk.injEq]
    refine ⟨hgd 9 (by omega), hgd 10 (by omega), hgd 11 (by omega),
      hgd 12 (by omega), hgd 13 (by omega),
      by rw [hgd 14 (by omega), hgd 15 (by omega)],
      by rw [hgd 16 (by omega), hgd 17 (by omega)],
      by rw [hgd 18 (by omega), hgd 19 (by omega)],
      hgd 20 (by omega),
      by rw [hgd 21 (by omega), hgd 22 (by omega)],
      hgd 23 (by omega), hgd 24 (by omega), hgd 25 (by omega),
      hgd 26 (by omega)⟩

/-- Witness for C10: the two test frames share their 9 header bytes, so
decoding succeeds for both. -/
theorem claim_C10_witness :
    (∃ e, decodeFrame sampleFrame = .error e ∧
      decodeFrame sampleFrame2 = .error e) ∨
    (∃ m1 m2, decodeFrame sampleFrame = .ok m1 ∧
      decodeFrame sampleFrame2 = .ok m2) :=
  (claim_C10_noninterference sampleFrame sampleFrame2 rfl rfl).1 rfl

end ModbusRouter
